import Mathlib

/-!
# libuta — formal model of the Unified Trust Anchor library

A shallow embedding of the libuta sources (`src/lib/uta_sim.c`, the IBM-TSS
hardware backend in `src/lib/uta.c`'s compilation unit `tpm_ibm.c`, and the
TCG-TSS hardware backend `src/lib/tpm_tcg.c`), together with theorems about
the backend capability contract: key derivation, random byte collection,
device-UUID derivation, parameter validation, error codes, and the
per-context access lock.

Bytes are modelled as `Nat` values (< 256 where produced by the code),
buffers as `List Nat` threaded in and out of each call, machine integers as
`Nat` with explicit `% 2^32` where a C conversion to `uint32_t` can actually
truncate.  External collaborators (the mbedtls crypto provider, the two TSS
stacks and the TPM device behind them, pthread locking) enter as explicit
parameters: pure functions for deterministic device computations, `Bool`
flags for each fallible call site, and a per-round oracle for the random
generator.
-/

namespace LibUta

/-! ## 32-bit word arithmetic -/

/-- Truncate to a 32-bit unsigned value, the C conversion to `uint32_t`. -/
def w32 (n : Nat) : Nat := n % 2 ^ 32

/-- 32-bit addition with wraparound. -/
def add32 (a b : Nat) : Nat := w32 (a + b)

/-- Right rotation of a 32-bit word by `k` places. -/
def rotr32 (k x : Nat) : Nat := w32 (x / 2 ^ k + x * 2 ^ (32 - k))

/-- Right shift of a 32-bit word. -/
def shr32 (k x : Nat) : Nat := x / 2 ^ k

/-- Bitwise complement of a 32-bit word. -/
def not32 (x : Nat) : Nat := Nat.xor x (2 ^ 32 - 1)

/-! ## SHA-256

Modelled from the spec: the cryptographic primitive provider (mbedtls's
`mbedtls_md_hmac` with `MBEDTLS_MD_SHA256`) is an external component of the
repository, so SHA-256 and HMAC are implemented here directly from the
FIPS 180-4 / RFC 2104 algorithms the spec names ("here always HMAC-SHA256").
-/

/-- The SHA-256 round constants (FIPS 180-4 §4.2.2), written in decimal. -/
def sha256K : List Nat :=
  [1116352408, 1899447441, 3049323471, 3921009573, 961987163,
   1508970993, 2453635748, 2870763221, 3624381080, 310598401,
   607225278, 1426881987, 1925078388, 2162078206, 2614888103,
   3248222580, 3835390401, 4022224774, 264347078, 604807628,
   770255983, 1249150122, 1555081692, 1996064986, 2554220882,
   2821834349, 2952996808, 3210313671, 3336571891, 3584528711,
   113926993, 338241895, 666307205, 773529912, 1294757372,
   1396182291, 1695183700, 1986661051, 2177026350, 2456956037,
   2730485921, 2820302411, 3259730800, 3345764771, 3516065817,
   3600352804, 4094571909, 275423344, 430227734, 506948616,
   659060556, 883997877, 958139571, 1322822218, 1537002063,
   1747873779, 1955562222, 2024104815, 2227730452, 2361852424,
   2428436474, 2756734187, 3204031479, 3329325298]

/-- The SHA-256 initial hash value (FIPS 180-4 §5.3.3), in decimal. -/
def sha256H0 : List Nat :=
  [1779033703, 3144134277, 1013904242, 2773480762,
   1359893119, 2600822924, 528734635, 1541459225]

/-- `Ch(e, f, g)`. -/
def sha256Ch (e f g : Nat) : Nat :=
  Nat.xor (Nat.land e f) (Nat.land (not32 e) g)

/-- `Maj(a, b, c)`. -/
def sha256Maj (a b c : Nat) : Nat :=
  Nat.xor (Nat.xor (Nat.land a b) (Nat.land a c)) (Nat.land b c)

/-- `Σ₀`. -/
def sha256S0 (x : Nat) : Nat :=
  Nat.xor (Nat.xor (rotr32 2 x) (rotr32 13 x)) (rotr32 22 x)

/-- `Σ₁`. -/
def sha256S1 (x : Nat) : Nat :=
  Nat.xor (Nat.xor (rotr32 6 x) (rotr32 11 x)) (rotr32 25 x)

/-- `σ₀`. -/
def sha256s0 (x : Nat) : Nat :=
  Nat.xor (Nat.xor (rotr32 7 x) (rotr32 18 x)) (shr32 3 x)

/-- `σ₁`. -/
def sha256s1 (x : Nat) : Nat :=
  Nat.xor (Nat.xor (rotr32 17 x) (rotr32 19 x)) (shr32 10 x)

/-- Big-endian reading of four bytes as a 32-bit word. -/
def word32OfBytes (b0 b1 b2 b3 : Nat) : Nat :=
  ((b0 * 256 + b1) * 256 + b2) * 256 + b3

/-- Big-endian bytes of a 32-bit word. -/
def bytesOfWord32 (w : Nat) : List Nat :=
  [w / 2 ^ 24 % 256, w / 2 ^ 16 % 256, w / 2 ^ 8 % 256, w % 256]

/-- A 64-byte block as its 16 big-endian 32-bit words. -/
def blockWords (block : List Nat) : List Nat :=
  (List.range 16).map fun i =>
    word32OfBytes (block.getD (4 * i) 0) (block.getD (4 * i + 1) 0)
      (block.getD (4 * i + 2) 0) (block.getD (4 * i + 3) 0)

/-- Extend the 16 message words to the 64-entry message schedule. -/
def sha256Schedule (w16 : List Nat) : List Nat :=
  (List.range 48).foldl
    (fun w _ =>
      let t := w.length
      w ++ [add32 (add32 (sha256s1 (w.getD (t - 2) 0)) (w.getD (t - 7) 0))
              (add32 (sha256s0 (w.getD (t - 15) 0)) (w.getD (t - 16) 0))])
    w16

/-- The eight working variables of the SHA-256 compression function. -/
structure Hash8 where
  a : Nat
  b : Nat
  c : Nat
  d : Nat
  e : Nat
  f : Nat
  g : Nat
  h : Nat
deriving DecidableEq

/-- One SHA-256 round: `kw` is the pair `(K_t, W_t)`. -/
def sha256Round (st : Hash8) (kw : Nat × Nat) : Hash8 :=
  let t1 := add32 (add32 (add32 st.h (sha256S1 st.e))
    (sha256Ch st.e st.f st.g)) (add32 kw.1 kw.2)
  let t2 := add32 (sha256S0 st.a) (sha256Maj st.a st.b st.c)
  ⟨add32 t1 t2, st.a, st.b, st.c, add32 st.d t1, st.e, st.f, st.g⟩

/-- Compress one 64-byte block into the running 8-word hash state. -/
def sha256Compress (hs : List Nat) (block : List Nat) : List Nat :=
  let ws := sha256Schedule (blockWords block)
  let st0 : Hash8 := ⟨hs.getD 0 0, hs.getD 1 0, hs.getD 2 0, hs.getD 3 0,
    hs.getD 4 0, hs.getD 5 0, hs.getD 6 0, hs.getD 7 0⟩
  let st := (sha256K.zip ws).foldl sha256Round st0
  [add32 (hs.getD 0 0) st.a, add32 (hs.getD 1 0) st.b,
   add32 (hs.getD 2 0) st.c, add32 (hs.getD 3 0) st.d,
   add32 (hs.getD 4 0) st.e, add32 (hs.getD 5 0) st.f,
   add32 (hs.getD 6 0) st.g, add32 (hs.getD 7 0) st.h]

/-- The big-endian 64-bit message-length trailer. -/
def lenBytes64 (bits : Nat) : List Nat :=
  [bits / 2 ^ 56 % 256, bits / 2 ^ 48 % 256, bits / 2 ^ 40 % 256,
   bits / 2 ^ 32 % 256, bits / 2 ^ 24 % 256, bits / 2 ^ 16 % 256,
   bits / 2 ^ 8 % 256, bits % 256]

/-- SHA-256 padding: `0x80`, zeros to 56 mod 64, then the bit length. -/
def sha256Pad (msg : List Nat) : List Nat :=
  let l := msg.length
  msg ++ [0x80] ++ List.replicate ((64 + 55 - l % 64) % 64) 0
    ++ lenBytes64 (8 * l)

/-- Concatenate the big-endian bytes of a word list. -/
def wordsToBytes : List Nat → List Nat
  | [] => []
  | w :: ws => bytesOfWord32 w ++ wordsToBytes ws

/-- SHA-256 of a byte string, as its 32 digest bytes. -/
def sha256 (msg : List Nat) : List Nat :=
  let padded := sha256Pad msg
  let blocks := (List.range (padded.length / 64)).map
    fun i => (padded.drop (64 * i)).take 64
  wordsToBytes (blocks.foldl sha256Compress sha256H0)

/-- HMAC-SHA256 (RFC 2104, block size 64). -/
def hmacSha256 (key msg : List Nat) : List Nat :=
  let k0 := if key.length > 64 then sha256 key else key
  let kp := k0 ++ List.replicate (64 - k0.length) 0
  let ipadded := kp.map fun b => Nat.xor b 0x36
  let opadded := kp.map fun b => Nat.xor b 0x5c
  sha256 (opadded ++ sha256 (ipadded ++ msg))

/-! ## UTA return codes and shared constants (`uta.h`) -/

/-- `UTA_SUCCESS` (`uta.h`). -/
def UTA_SUCCESS : Nat := 0x00

/-- `UTA_INVALID_KEY_LENGTH` (`uta.h`). -/
def UTA_INVALID_KEY_LENGTH : Nat := 0x01

/-- `UTA_INVALID_DV_LENGTH` (`uta.h`). -/
def UTA_INVALID_DV_LENGTH : Nat := 0x02

/-- `UTA_INVALID_KEY_SLOT` (`uta.h`). -/
def UTA_INVALID_KEY_SLOT : Nat := 0x03

/-- `UTA_TA_ERROR` (`uta.h`). -/
def UTA_TA_ERROR : Nat := 0x10

/-- `USED_KEY_SLOTS`, identical in all three backends. -/
def USED_KEY_SLOTS : Nat := 2

/-- Overwrite the first `n` bytes of buffer `buf` with bytes from `src`
(the effect of `memcpy(buf, src, n)` on a buffer of length ≥ n). -/
def overwriteFirst (buf src : List Nat) (n : Nat) : List Nat :=
  src.take n ++ buf.drop n

/-! ## Simulation backend (`uta_sim.c`)

Buffers owned by the caller are threaded as `List Nat`: each operation takes
the buffer's contents before the call and returns `(rc, contents after)`.
The PRNG behind `rand()` and the `/etc/machine-id` file are external state,
passed as explicit parameters.
-/

/-- `KEY_SLOT_0` (`uta_sim.h`): the embedded 32-byte key for slot 0. -/
def KEY_SLOT_0 : List Nat :=
  [0x80, 0x6d, 0x42, 0x7c, 0xfd, 0x33, 0x7f, 0xcf,
   0xa3, 0xe9, 0xf1, 0xa9, 0xf9, 0x20, 0x27, 0x27,
   0x91, 0xc0, 0x03, 0x60, 0x33, 0x90, 0xdd, 0x26,
   0xed, 0x54, 0x6c, 0x45, 0x14, 0x42, 0x49, 0x70]

/-- `KEY_SLOT_1` (`uta_sim.h`): the embedded 32-byte key for slot 1. -/
def KEY_SLOT_1 : List Nat :=
  [0x94, 0x2a, 0x25, 0xb1, 0x2d, 0xab, 0xcb, 0xc8,
   0x05, 0xb6, 0x48, 0x75, 0x5b, 0xeb, 0x04, 0xb1,
   0xa0, 0xa3, 0x69, 0x4f, 0x8e, 0x70, 0x19, 0xaa,
   0x5c, 0xd8, 0x3a, 0x15, 0xfb, 0x48, 0x08, 0xea]

/-- `KEY_SLOTS` (`uta_sim.c`): the key table indexed by slot. -/
def KEY_SLOTS : List (List Nat) := [KEY_SLOT_0, KEY_SLOT_1]

/-- `KEY_LEN` (`uta_sim.c`). -/
def KEY_LEN : Nat := 32

/-- `DERIV_VAL_LEN` (`uta_sim.c`). -/
def DERIV_VAL_LEN : Nat := 8

/-- `sim_derive_key` (`uta_sim.c`): validate `key_slot`, `len_dv`, `len_key`
in that order, then HMAC-SHA256 the first `len_dv` bytes at `dv` with the
slot's embedded key into a 32-byte scratch buffer and copy its first
`len_key` bytes into the caller's `key` buffer. -/
def sim_derive_key (key : List Nat) (len_key : Nat) (dv : List Nat)
    (len_dv : Nat) (key_slot : Nat) : Nat × List Nat :=
  if key_slot > USED_KEY_SLOTS - 1 then
    (UTA_INVALID_KEY_SLOT, key)
  else if len_dv ≠ DERIV_VAL_LEN then
    (UTA_INVALID_DV_LENGTH, key)
  else if len_key > KEY_LEN then
    (UTA_INVALID_KEY_LENGTH, key)
  else
    let key_buffer := hmacSha256 (KEY_SLOTS.getD key_slot []) (dv.take len_dv)
    (UTA_SUCCESS, overwriteFirst key key_buffer len_key)

/-- `sim_get_random` (`uta_sim.c`): writes `rand() % 256` into
`random[0] .. random[len_random-1]` and returns success.  `stream i` is the
value of the `i`-th `rand()` call made by this invocation.  The loop
counter `i` is a C `int` compared against the `size_t` length, so for
`len_random ≥ 2^31` the increment past `INT_MAX` overflows — undefined
behaviour, modelled as `none`; below that bound the call always succeeds. -/
def sim_get_random (stream : Nat → Nat) (random : List Nat)
    (len_random : Nat) : Option (Nat × List Nat) :=
  if len_random < 2 ^ 31 then
    some (UTA_SUCCESS,
      overwriteFirst random
        ((List.range len_random).map fun i => stream i % 256) len_random)
  else none

/-- Value of an ASCII hex digit, as accepted by `sscanf`'s `%X`. -/
def hexDigit? (c : Char) : Option Nat :=
  if '0' ≤ c ∧ c ≤ '9' then some (c.toNat - '0'.toNat)
  else if 'a' ≤ c ∧ c ≤ 'f' then some (c.toNat - 'a'.toNat + 10)
  else if 'A' ≤ c ∧ c ≤ 'F' then some (c.toNat - 'A'.toNat + 10)
  else none

/-- `sscanf(s, "%02hhX", ...)` on two characters, both of which are hex
digits in every input the claims evaluate (the corner behaviour of `sscanf`
on a single digit or leading whitespace is not modelled). -/
def hexPair? (c1 c2 : Char) : Option Nat :=
  match hexDigit? c1, hexDigit? c2 with
  | some v1, some v2 => some (16 * v1 + v2)
  | _, _ => none

/-- The `for(i=0;i<16;i++)` conversion loop of `sim_get_device_uuid`: read
`n` bytes, each from the next two hex characters. -/
def readHexBytes : List Char → Nat → Option (List Nat)
  | _, 0 => some []
  | cs, Nat.succ n =>
    match hexPair? (cs.getD 0 ' ') (cs.getD 1 ' '), readHexBytes (cs.drop 2) n with
    | some v, some rest => some (v :: rest)
    | _, _ => none

/-- `sim_get_device_uuid` (`uta_sim.c`): read 32 bytes of
`/etc/machine-id` (`none` models `fopen` failure; a shorter file fails the
`fread` length check), hex-decode them pairwise into 16 bytes, and copy those
bytes verbatim into the caller's `uuid` buffer.  No RFC 4122 formatting is
applied. -/
def sim_get_device_uuid (machineIdFile : Option (List Char))
    (uuid : List Nat) : Nat × List Nat :=
  match machineIdFile with
  | none => (UTA_TA_ERROR, uuid)
  | some content =>
    if (min 32 content.length) ≠ 32 then (UTA_TA_ERROR, uuid)
    else
      match readHexBytes content 16 with
      | none => (UTA_TA_ERROR, uuid)
      | some tmp_uuid => (UTA_SUCCESS, overwriteFirst uuid tmp_uuid 16)

/-- `sim_open` (`uta_sim.c`): seeds the PRNG and always succeeds. -/
def sim_open : Nat := UTA_SUCCESS

/-- `sim_close` (`uta_sim.c`): always succeeds. -/
def sim_close : Nat := UTA_SUCCESS

/-- `sim_self_test` (`uta_sim.c`): always succeeds. -/
def sim_self_test : Nat := UTA_SUCCESS

/-! ## Hardware backends: shared pieces

Each hardware operation is modelled against a device/environment record: a
`Bool` per fallible external call site (`true` = the call returns 0), pure
functions for the deterministic device computations (the persistent slot
keys, the endorsement-hierarchy primary key — deterministic for a given
device per the TPM architecture — and the device's HMAC engine), and a
response oracle for `GetRandom`.  Each operation returns its `uta_rc`
together with the state of the context's `accesslock` at return (`true` =
still held) and the caller buffer it writes.
-/

/-- The fixed 8-byte label `"DEVICEID"` hashed for the device UUID. -/
def DEVICEID : List Nat := [0x44, 0x45, 0x56, 0x49, 0x43, 0x45, 0x49, 0x44]

/-- `DERIV_STR_LEN` (`tpm_ibm.c`, `tpm_tcg.c`). -/
def DERIV_STR_LEN : Nat := 8

/-- The RFC 4122 bit overwrite both hardware backends apply to the UUID
buffer: `uuid[6] = (uuid[6] & 0x0F) | 0x40; uuid[8] = (uuid[8] & 0x3F) | 0x80`. -/
def rfc4122Format (u : List Nat) : List Nat :=
  let u1 := u.set 6 (Nat.lor (Nat.land (u.getD 6 0) 0x0F) 0x40)
  u1.set 8 (Nat.lor (Nat.land (u1.getD 8 0) 0x3F) 0x80)

/-- The inner copy of one `GetRandom` response: write each received byte at
index `bytesCopied` while `bytesCopied < target`, incrementing as we go
(`s` is `(bytesCopied, buffer)`). -/
def copyRandomBytes (target : Nat) (s : Nat × List Nat) (bytes : List Nat) :
    Nat × List Nat :=
  bytes.foldl (fun p b => if p.1 < target then (p.1 + 1, p.2.set p.1 b) else p) s

/-- State of the multi-round random collection loop.  `reqs` records, for
each executed round, the pair (`bytesCopied` before the round, the count
requested from the device); `round` indexes the response oracle. -/
structure RandState where
  copied : Nat
  ok : Bool
  buf : List Nat
  reqs : List (Nat × Nat)
  round : Nat
deriving DecidableEq

/-- Initial loop state over the caller's buffer. -/
def randInit (buf : List Nat) : RandState :=
  ⟨0, true, buf, [], 0⟩

/-- The loop guard `(rc == 0) && (bytesCopied < bytesRequested)`. -/
def randGuard (target : Nat) (s : RandState) : Bool :=
  s.ok && decide (s.copied < target)

/-- One round of the collection loop: request `target - copied` bytes (a
`uint32_t` in both backends) and either record the device failure or copy
the received bytes. -/
def randStep (resp : Nat → Nat → Option (List Nat)) (target : Nat)
    (s : RandState) : RandState :=
  match resp s.round (w32 (target - s.copied)) with
  | none =>
    ⟨s.copied, false, s.buf,
      s.reqs ++ [(s.copied, w32 (target - s.copied))], s.round + 1⟩
  | some bytes =>
    ⟨(copyRandomBytes target (s.copied, s.buf) bytes).1, true,
      (copyRandomBytes target (s.copied, s.buf) bytes).2,
      s.reqs ++ [(s.copied, w32 (target - s.copied))], s.round + 1⟩

/-- The collection loop, fuelled: run rounds while the guard holds, for at
most `fuel` rounds.  (The C loop has no bound of its own; theorems about
the C function's return apply only to states the guard has released.) -/
def randLoop (resp : Nat → Nat → Option (List Nat)) (target : Nat) :
    Nat → RandState → RandState
  | 0, s => s
  | Nat.succ n, s =>
    if randGuard target s then randLoop resp target n (randStep resp target s)
    else s

/-! ## Hardware backend, IBM TSS variant (`tpm_ibm.c`, built as `uta.c`'s
backend `TPM_IBM`) -/

namespace TpmIbm

/-- Environment of one IBM-backend call: deterministic device functions plus
one success flag per fallible external call site. -/
structure Dev where
  slotKey : Nat → List Nat
  ekKey : List Nat
  devHmac : List Nat → List Nat → List Nat
  hmacOk : Bool
  createEkOk : Bool
  flushOk : Bool
  randResp : Nat → Nat → Option (List Nat)
  selfTestOk : Bool
  getTestResultOk : Bool
  testResult : Nat
  lockInitOk : Bool
  lockOk : Bool
  unlockOk : Bool
  tssCreateOk : Bool
  setIfaceOk : Bool
  setDirOk : Bool
  setDeviceOk : Bool
  startSessionOk : Bool
  tssDeleteOk : Bool

/-- `tpm_calc_hmac` (`tpm_ibm.c`): the TPM HMAC command over the key loaded
at the given handle; on success the digest bytes are copied into the
caller's 32-byte scratch buffer (whose residue beyond the digest is
modelled as zeros; the device digest is 32 bytes in every run of
interest). -/
def calcHmac (dev : Dev) (keyVal : List Nat) (deriv_val : List Nat) :
    Option (List Nat) :=
  if dev.hmacOk then
    let d := dev.devHmac keyVal deriv_val
    some (d.take 32 ++ List.replicate (32 - d.length) 0)
  else none

/-- `tpm_derive_key` (`tpm_ibm.c`): validate `key_slot`, `len_dv`,
`len_key` in that order; lock; HMAC on the TPM with the slot's persistent
key; unlock (result ignored); copy the first `len_key` digest bytes on
success. -/
def tpm_derive_key (dev : Dev) (key : List Nat) (len_key : Nat)
    (dv : List Nat) (len_dv : Nat) (key_slot : Nat) : Nat × Bool × List Nat :=
  if key_slot > USED_KEY_SLOTS - 1 then (UTA_INVALID_KEY_SLOT, false, key)
  else if len_dv ≠ 8 then (UTA_INVALID_DV_LENGTH, false, key)
  else if len_key > 32 then (UTA_INVALID_KEY_LENGTH, false, key)
  else if !dev.lockOk then (UTA_TA_ERROR, false, key)
  else
    match calcHmac dev (dev.slotKey key_slot) (dv.take DERIV_STR_LEN) with
    | none => (UTA_TA_ERROR, !dev.unlockOk, key)
    | some key_buffer =>
      (UTA_SUCCESS, !dev.unlockOk, overwriteFirst key key_buffer len_key)

/-- `tpm_get_rand` (`tpm_ibm.c`): `bytesRequested` is `len_random`
converted to `uint32_t`; collect rounds until `bytesCopied` reaches it or a
round fails.  `none` models fuel running out with the loop still live (the
C call has not returned). -/
def tpm_get_rand (dev : Dev) (randomValue : List Nat) (len_random : Nat)
    (fuel : Nat) : Option RandState :=
  let bytesRequested := w32 len_random
  let s := randLoop dev.randResp bytesRequested fuel (randInit randomValue)
  if randGuard bytesRequested s then none else some s

/-- `tpm_get_random` (`tpm_ibm.c`): lock, run `tpm_get_rand`, unlock
(result ignored), map a nonzero loop rc to `UTA_TA_ERROR`. -/
def tpm_get_random (dev : Dev) (random : List Nat) (len_random : Nat)
    (fuel : Nat) : Option (Nat × Bool × List Nat) :=
  if !dev.lockOk then some (UTA_TA_ERROR, false, random)
  else
    match tpm_get_rand dev random len_random fuel with
    | none => none
    | some s =>
      some (if s.ok then UTA_SUCCESS else UTA_TA_ERROR, !dev.unlockOk, s.buf)

/-- `tpm_get_device_uuid` (`tpm_ibm.c`): lock; create the transient
endorsement primary key; HMAC `"DEVICEID"` with it; flush the key and
unlock (both results ignored); on success copy the first 16 digest bytes
and apply the RFC 4122 bit overwrite. -/
def tpm_get_device_uuid (dev : Dev) (uuid : List Nat) : Nat × Bool × List Nat :=
  if !dev.lockOk then (UTA_TA_ERROR, false, uuid)
  else if !dev.createEkOk then (UTA_TA_ERROR, !dev.unlockOk, uuid)
  else
    match calcHmac dev dev.ekKey DEVICEID with
    | none => (UTA_TA_ERROR, !dev.unlockOk, uuid)
    | some hmac_output =>
      (UTA_SUCCESS, !dev.unlockOk,
        rfc4122Format (overwriteFirst uuid hmac_output 16))

/-- `tpm_self_test` (`tpm_ibm.c`): lock; trigger the self test (unlocking
on failure); read the result, unlock (ignored), and fail on a nonzero
read rc or test result. -/
def tpm_self_test (dev : Dev) : Nat × Bool :=
  if !dev.lockOk then (UTA_TA_ERROR, false)
  else if !dev.selfTestOk then (UTA_TA_ERROR, !dev.unlockOk)
  else if !dev.getTestResultOk then (UTA_TA_ERROR, !dev.unlockOk)
  else if dev.testResult ≠ 0 then (UTA_TA_ERROR, !dev.unlockOk)
  else (UTA_SUCCESS, !dev.unlockOk)

/-- `tpm_open` (`tpm_ibm.c`): init and take the lock, create the TSS
context, set its three properties, start the HMAC session; every failure
after the lock is taken returns without unlocking. -/
def tpm_open (dev : Dev) : Nat × Bool :=
  if !dev.lockInitOk then (UTA_TA_ERROR, false)
  else if !dev.lockOk then (UTA_TA_ERROR, false)
  else if !dev.tssCreateOk then (UTA_TA_ERROR, true)
  else if !dev.setIfaceOk then (UTA_TA_ERROR, true)
  else if !dev.setDirOk then (UTA_TA_ERROR, true)
  else if !dev.setDeviceOk then (UTA_TA_ERROR, true)
  else if !dev.startSessionOk then (UTA_TA_ERROR, true)
  else (UTA_SUCCESS, !dev.unlockOk)

/-- `tpm_close` (`tpm_ibm.c`): lock; flush the session (ignored); delete
the TSS context, returning without unlocking if that fails; unlock and
destroy the lock (both ignored). -/
def tpm_close (dev : Dev) : Nat × Bool :=
  if !dev.lockOk then (UTA_TA_ERROR, false)
  else if !dev.tssDeleteOk then (UTA_TA_ERROR, true)
  else (UTA_SUCCESS, !dev.unlockOk)

/-- A healthy device/environment: every external call succeeds, the device
HMAC engine is genuine HMAC-SHA256, `GetRandom` returns as many zero bytes
as requested. -/
def allOk : Dev where
  slotKey := fun i => List.replicate 31 0 ++ [i]
  ekKey := List.replicate 32 1
  devHmac := fun k d => hmacSha256 k d
  hmacOk := true
  createEkOk := true
  flushOk := true
  randResp := fun _ req => some (List.replicate req 0)
  selfTestOk := true
  getTestResultOk := true
  testResult := 0
  lockInitOk := true
  lockOk := true
  unlockOk := true
  tssCreateOk := true
  setIfaceOk := true
  setDirOk := true
  setDeviceOk := true
  startSessionOk := true
  tssDeleteOk := true

end TpmIbm

/-! ## Hardware backend, TCG TSS variant (`tpm_tcg.c`) -/

namespace TpmTcg

/-- Environment of one TCG-backend call, one flag per fallible ESAPI call
site. -/
structure Dev where
  slotKey : Nat → List Nat
  ekKey : List Nat
  devHmac : List Nat → List Nat → List Nat
  fromPublicOk : Bool
  setAttrOk : Bool
  hmacOk : Bool
  createEkOk : Bool
  setAuthOk : Bool
  flushEkOk : Bool
  randResp : Nat → Nat → Option (List Nat)
  selfTestOk : Bool
  getTestResultOk : Bool
  testResult : Nat
  lockInitOk : Bool
  lockOk : Bool
  unlockOk : Bool
  tctiInit1Ok : Bool
  callocOk : Bool
  tctiInit2Ok : Bool
  esysInitOk : Bool
  saltFromPublicOk : Bool
  startSessionOk : Bool

/-- `tpm_derive_key` (`tpm_tcg.c`): validate `key_slot`, `len_dv`,
`len_key` in that order; lock; resolve the slot's persistent handle, set
session attributes, run `Esys_HMAC`, check the digest length — each of
these four failures returns without unlocking; on success unlock (ignored)
and copy the first `len_key` digest bytes. -/
def tpm_derive_key (dev : Dev) (key : List Nat) (len_key : Nat)
    (dv : List Nat) (len_dv : Nat) (key_slot : Nat) : Nat × Bool × List Nat :=
  if key_slot > USED_KEY_SLOTS - 1 then (UTA_INVALID_KEY_SLOT, false, key)
  else if len_dv ≠ 8 then (UTA_INVALID_DV_LENGTH, false, key)
  else if len_key > 32 then (UTA_INVALID_KEY_LENGTH, false, key)
  else if !dev.lockOk then (UTA_TA_ERROR, false, key)
  else if !dev.fromPublicOk then (UTA_TA_ERROR, true, key)
  else if !dev.setAttrOk then (UTA_TA_ERROR, true, key)
  else if !dev.hmacOk then (UTA_TA_ERROR, true, key)
  else
    let outHMAC := dev.devHmac (dev.slotKey key_slot) (dv.take len_dv)
    if outHMAC.length < len_key then (UTA_TA_ERROR, true, key)
    else (UTA_SUCCESS, !dev.unlockOk, overwriteFirst key outHMAC len_key)

/-- `tpm_get_random` (`tpm_tcg.c`): lock; set session attributes (failure
returns without unlocking); collect rounds until `bytesCopied` reaches
`len_random` — a failed round returns from inside the loop without
unlocking; at loop exit unlock (ignored) and return success.  `none`
models fuel running out with the loop still live.  (`bytesCopied` is a
`uint32_t` in the source; the model's plain `Nat` coincides with it
whenever `len_random < 2^32`, and theorems about larger lengths are not
stated for this backend.) -/
def tpm_get_random (dev : Dev) (random : List Nat) (len_random : Nat)
    (fuel : Nat) : Option (Nat × Bool × List Nat) :=
  if !dev.lockOk then some (UTA_TA_ERROR, false, random)
  else if !dev.setAttrOk then some (UTA_TA_ERROR, true, random)
  else
    let s := randLoop dev.randResp len_random fuel (randInit random)
    if randGuard len_random s then none
    else if !s.ok then some (UTA_TA_ERROR, true, s.buf)
    else some (UTA_SUCCESS, !dev.unlockOk, s.buf)

/-- `tpm_get_device_uuid` (`tpm_tcg.c`): lock; create the transient
endorsement primary key (that failure unlocks before returning); set its
auth, set session attributes, run `Esys_HMAC`, check the digest length,
flush the key — each of these five failures returns without unlocking; on
success unlock (ignored), copy the first 16 digest bytes and apply the
RFC 4122 bit overwrite. -/
def tpm_get_device_uuid (dev : Dev) (uuid : List Nat) : Nat × Bool × List Nat :=
  if !dev.lockOk then (UTA_TA_ERROR, false, uuid)
  else if !dev.createEkOk then (UTA_TA_ERROR, !dev.unlockOk, uuid)
  else if !dev.setAuthOk then (UTA_TA_ERROR, true, uuid)
  else if !dev.setAttrOk then (UTA_TA_ERROR, true, uuid)
  else if !dev.hmacOk then (UTA_TA_ERROR, true, uuid)
  else
    let outHMAC := dev.devHmac dev.ekKey DEVICEID
    if outHMAC.length < 16 then (UTA_TA_ERROR, true, uuid)
    else if !dev.flushEkOk then (UTA_TA_ERROR, true, uuid)
    else
      (UTA_SUCCESS, !dev.unlockOk,
        rfc4122Format (overwriteFirst uuid outHMAC 16))

/-- `tpm_self_test` (`tpm_tcg.c`): lock; trigger the self test (that
failure unlocks before returning); read the result — that failure returns
without unlocking; unlock (ignored) and fail on a nonzero test result. -/
def tpm_self_test (dev : Dev) : Nat × Bool :=
  if !dev.lockOk then (UTA_TA_ERROR, false)
  else if !dev.selfTestOk then (UTA_TA_ERROR, !dev.unlockOk)
  else if !dev.getTestResultOk then (UTA_TA_ERROR, true)
  else if dev.testResult ≠ 0 then (UTA_TA_ERROR, !dev.unlockOk)
  else (UTA_SUCCESS, !dev.unlockOk)

/-- `tpm_open` (`tpm_tcg.c`): init and take the lock, then initialize the
TCTI (twice), allocate it, initialize ESAPI, resolve the salt key and
start the session; every failure after the lock is taken returns without
unlocking. -/
def tpm_open (dev : Dev) : Nat × Bool :=
  if !dev.lockInitOk then (UTA_TA_ERROR, false)
  else if !dev.lockOk then (UTA_TA_ERROR, false)
  else if !dev.tctiInit1Ok then (UTA_TA_ERROR, true)
  else if !dev.callocOk then (UTA_TA_ERROR, true)
  else if !dev.tctiInit2Ok then (UTA_TA_ERROR, true)
  else if !dev.esysInitOk then (UTA_TA_ERROR, true)
  else if !dev.saltFromPublicOk then (UTA_TA_ERROR, true)
  else if !dev.startSessionOk then (UTA_TA_ERROR, true)
  else (UTA_SUCCESS, !dev.unlockOk)

/-- `tpm_close` (`tpm_tcg.c`): lock; flush the session, finalize the
contexts and free (none of which can fail the call); unlock and destroy
the lock (both ignored). -/
def tpm_close (dev : Dev) : Nat × Bool :=
  if !dev.lockOk then (UTA_TA_ERROR, false)
  else (UTA_SUCCESS, !dev.unlockOk)

/-- A healthy device/environment, as for the IBM variant. -/
def allOk : Dev where
  slotKey := fun i => List.replicate 31 0 ++ [i]
  ekKey := List.replicate 32 1
  devHmac := fun k d => hmacSha256 k d
  fromPublicOk := true
  setAttrOk := true
  hmacOk := true
  createEkOk := true
  setAuthOk := true
  flushEkOk := true
  randResp := fun _ req => some (List.replicate req 0)
  selfTestOk := true
  getTestResultOk := true
  testResult := 0
  lockInitOk := true
  lockOk := true
  unlockOk := true
  tctiInit1Ok := true
  callocOk := true
  tctiInit2Ok := true
  esysInitOk := true
  saltFromPublicOk := true
  startSessionOk := true

end TpmTcg

/-! ## Helper lemmas -/

theorem sha256Compress_length (hs block : List Nat) :
    (sha256Compress hs block).length = 8 := rfl

theorem foldl_sha256Compress_length (blocks : List (List Nat))
    (hs : List Nat) (h : hs.length = 8) :
    (blocks.foldl sha256Compress hs).length = 8 := by
  induction blocks generalizing hs with
  | nil => simpa using h
  | cons b bs ih => simpa using ih _ (sha256Compress_length hs b)

theorem wordsToBytes_length (ws : List Nat) :
    (wordsToBytes ws).length = 4 * ws.length := by
  induction ws with
  | nil => rfl
  | cons w ws ih => simp [wordsToBytes, bytesOfWord32, ih]; ring

theorem sha256_length (msg : List Nat) : (sha256 msg).length = 32 := by
  unfold sha256
  rw [wordsToBytes_length, foldl_sha256Compress_length]
  rfl

theorem hmacSha256_length (key msg : List Nat) :
    (hmacSha256 key msg).length = 32 := by
  unfold hmacSha256
  exact sha256_length _

theorem overwriteFirst_drop (buf src : List Nat) (n : Nat)
    (h : n ≤ src.length) :
    (overwriteFirst buf src n).drop n = buf.drop n := by
  unfold overwriteFirst
  exact List.drop_left' (by simp [List.length_take]; omega)

theorem overwriteFirst_length (buf src : List Nat) (n : Nat)
    (hs : n ≤ src.length) (hb : n ≤ buf.length) :
    (overwriteFirst buf src n).length = buf.length := by
  unfold overwriteFirst
  simp [List.length_take]
  omega

theorem calcHmac_length (dev : TpmIbm.Dev) (k d out : List Nat)
    (h : TpmIbm.calcHmac dev k d = some out) : out.length = 32 := by
  unfold TpmIbm.calcHmac at h
  split at h
  · cases h
    simp [List.length_take]
    omega
  · cases h

/-! ## C1 — simulation `derive_key` computes truncated HMAC-SHA256 -/

/-- **C1.**  For every `key_slot ∈ {0,1}`, every derivation value of length
8 and every requested output length `len_key ≤ 32`, `sim_derive_key`
returns success and overwrites the first `len_key` bytes of the key buffer
with the first `len_key` bytes of HMAC-SHA256 of the slot's embedded
32-byte key (`KEY_SLOT_0` resp. `KEY_SLOT_1`) over `dv`, computed here by
an independent FIPS-180-4/RFC-2104 implementation. -/
theorem sim_derive_key_hmac_spec (buf dv : List Nat) (len_key key_slot : Nat)
    (hs : key_slot ≤ 1) (hdv : dv.length = 8) (hk : len_key ≤ 32) :
    sim_derive_key buf len_key dv 8 key_slot =
      (UTA_SUCCESS,
        (hmacSha256 (if key_slot = 0 then KEY_SLOT_0 else KEY_SLOT_1) dv).take
            len_key ++ buf.drop len_key) := by
  have htake : dv.take 8 = dv := List.take_of_length_le (by rw [hdv])
  have hnk : ¬ 32 < len_key := by omega
  interval_cases key_slot <;>
    simp [sim_derive_key, USED_KEY_SLOTS, DERIV_VAL_LEN, KEY_LEN, KEY_SLOTS,
      overwriteFirst, htake, hnk, UTA_SUCCESS]

/-- Witness for C1 at `key_slot = 0`, `dv = [0,…,7]`, `len_key = 16`. -/
theorem sim_derive_key_hmac_spec_witness :
    sim_derive_key (List.replicate 32 0xAA) 16 [0, 1, 2, 3, 4, 5, 6, 7] 8 0 =
      (UTA_SUCCESS,
        (hmacSha256 KEY_SLOT_0 [0, 1, 2, 3, 4, 5, 6, 7]).take 16 ++
          (List.replicate 32 0xAA).drop 16) := by
  have h := sim_derive_key_hmac_spec (List.replicate 32 0xAA)
    [0, 1, 2, 3, 4, 5, 6, 7] 16 0 (by decide) (by decide) (by decide)
  simpa using h

/-! ## C9 — `derive_key` touches the key buffer only on success, and only
its first `len_key` bytes -/

/-- **C9.**  In all three backends, a `derive_key` call that returns any
code other than success leaves the caller's key buffer exactly as it was,
and in every case (success included) the bytes from position `len_key` on
are never written. -/
theorem derive_key_error_leaves_buffer (devI : TpmIbm.Dev) (devT : TpmTcg.Dev)
    (buf dv : List Nat) (len_key len_dv key_slot : Nat) :
    ((sim_derive_key buf len_key dv len_dv key_slot).1 ≠ UTA_SUCCESS →
      (sim_derive_key buf len_key dv len_dv key_slot).2 = buf) ∧
    (sim_derive_key buf len_key dv len_dv key_slot).2.drop len_key =
      buf.drop len_key ∧
    ((TpmIbm.tpm_derive_key devI buf len_key dv len_dv key_slot).1 ≠
        UTA_SUCCESS →
      (TpmIbm.tpm_derive_key devI buf len_key dv len_dv key_slot).2.2 = buf) ∧
    (TpmIbm.tpm_derive_key devI buf len_key dv len_dv key_slot).2.2.drop
        len_key = buf.drop len_key ∧
    ((TpmTcg.tpm_derive_key devT buf len_key dv len_dv key_slot).1 ≠
        UTA_SUCCESS →
      (TpmTcg.tpm_derive_key devT buf len_key dv len_dv key_slot).2.2 = buf) ∧
    (TpmTcg.tpm_derive_key devT buf len_key dv len_dv key_slot).2.2.drop
        len_key = buf.drop len_key := by
  refine ⟨?_, ?_, ?_, ?_, ?_, ?_⟩
  · unfold sim_derive_key
    split_ifs <;> simp [UTA_SUCCESS, UTA_INVALID_KEY_SLOT,
      UTA_INVALID_DV_LENGTH, UTA_INVALID_KEY_LENGTH]
  · unfold sim_derive_key
    split_ifs with h1 h2 h3
    · rfl
    · rfl
    · rfl
    · exact overwriteFirst_drop _ _ _ (by rw [hmacSha256_length]; unfold KEY_LEN at h3; omega)
  · unfold TpmIbm.tpm_derive_key
    split_ifs with h1 h2 h3 h4
    · simp
    · simp
    · simp
    · simp
    · cases h : TpmIbm.calcHmac devI (devI.slotKey key_slot)
        (dv.take DERIV_STR_LEN) <;> simp [h]
  · unfold TpmIbm.tpm_derive_key
    split_ifs with h1 h2 h3 h4
    · rfl
    · rfl
    · rfl
    · rfl
    · cases h : TpmIbm.calcHmac devI (devI.slotKey key_slot)
        (dv.take DERIV_STR_LEN) with
      | none => simp [h]
      | some out =>
        simp only [h]
        exact overwriteFirst_drop _ _ _
          (by rw [calcHmac_length devI _ _ _ h]; omega)
  · unfold TpmTcg.tpm_derive_key
    split_ifs with h1 h2 h3 h4 h5 h6 h7
    · simp
    · simp
    · simp
    · simp
    · simp
    · simp
    · simp
    · by_cases h8 :
        (devT.devHmac (devT.slotKey key_slot) (dv.take len_dv)).length <
          len_key <;> simp [h8]
  · unfold TpmTcg.tpm_derive_key
    split_ifs with h1 h2 h3 h4 h5 h6 h7
    · rfl
    · rfl
    · rfl
    · rfl
    · rfl
    · rfl
    · rfl
    · by_cases h8 :
        (devT.devHmac (devT.slotKey key_slot) (dv.take len_dv)).length <
          len_key
      · simp [h8]
      · have hd := overwriteFirst_drop buf
          (devT.devHmac (devT.slotKey key_slot) (dv.take len_dv)) len_key
          (by omega)
        simp [h8, hd]

/-- Witness for C9: an invalid-slot call leaves the buffer unchanged, a
valid call never writes past `len_key`. -/
theorem derive_key_error_leaves_buffer_witness :
    (sim_derive_key [1, 2, 3] 3 [] 7 2).2 = [1, 2, 3] ∧
    (sim_derive_key [1, 2, 3] 2 [0, 1, 2, 3, 4, 5, 6, 7] 8 0).2.drop 2 =
      [1, 2, 3].drop 2 := by
  refine ⟨?_, ?_⟩
  · exact (derive_key_error_leaves_buffer TpmIbm.allOk TpmTcg.allOk
      [1, 2, 3] [] 3 7 2).1 (by decide)
  · exact (derive_key_error_leaves_buffer TpmIbm.allOk TpmTcg.allOk
      [1, 2, 3] [0, 1, 2, 3, 4, 5, 6, 7] 2 8 0).2.1

/-! ## C10 — `derive_key` checks `key_slot`, then `len_dv`, then `len_key` -/

/-- **C10.**  In all three backends, `derive_key` validates its parameters
in the fixed order `key_slot`, `len_dv`, `len_key`, so the earliest failed
check's code is returned when several parameters are invalid at once. -/
theorem derive_key_check_order (devI : TpmIbm.Dev) (devT : TpmTcg.Dev)
    (buf dv : List Nat) (len_key len_dv key_slot : Nat) :
    (key_slot > 1 →
      (sim_derive_key buf len_key dv len_dv key_slot).1 =
          UTA_INVALID_KEY_SLOT ∧
      (TpmIbm.tpm_derive_key devI buf len_key dv len_dv key_slot).1 =
          UTA_INVALID_KEY_SLOT ∧
      (TpmTcg.tpm_derive_key devT buf len_key dv len_dv key_slot).1 =
          UTA_INVALID_KEY_SLOT) ∧
    (key_slot ≤ 1 → len_dv ≠ 8 →
      (sim_derive_key buf len_key dv len_dv key_slot).1 =
          UTA_INVALID_DV_LENGTH ∧
      (TpmIbm.tpm_derive_key devI buf len_key dv len_dv key_slot).1 =
          UTA_INVALID_DV_LENGTH ∧
      (TpmTcg.tpm_derive_key devT buf len_key dv len_dv key_slot).1 =
          UTA_INVALID_DV_LENGTH) ∧
    (key_slot ≤ 1 → len_dv = 8 → len_key > 32 →
      (sim_derive_key buf len_key dv len_dv key_slot).1 =
          UTA_INVALID_KEY_LENGTH ∧
      (TpmIbm.tpm_derive_key devI buf len_key dv len_dv key_slot).1 =
          UTA_INVALID_KEY_LENGTH ∧
      (TpmTcg.tpm_derive_key devT buf len_key dv len_dv key_slot).1 =
          UTA_INVALID_KEY_LENGTH) := by
  refine ⟨fun h => ?_, fun h h' => ?_, fun h h' h'' => ?_⟩
  · simp [sim_derive_key, TpmIbm.tpm_derive_key, TpmTcg.tpm_derive_key,
      USED_KEY_SLOTS, DERIV_VAL_LEN, KEY_LEN, h]
  · have hns : ¬ 1 < key_slot := by omega
    simp [sim_derive_key, TpmIbm.tpm_derive_key, TpmTcg.tpm_derive_key,
      USED_KEY_SLOTS, DERIV_VAL_LEN, KEY_LEN, hns, h']
  · have hns : ¬ 1 < key_slot := by omega
    simp [sim_derive_key, TpmIbm.tpm_derive_key, TpmTcg.tpm_derive_key,
      USED_KEY_SLOTS, DERIV_VAL_LEN, KEY_LEN, hns, h', h'']

/-- Witness for C10 at the concrete inputs named by the claim:
`(slot 5, len_dv 7, len_key 40)` is rejected for the slot, and
`(slot 0, len_dv 7, len_key 40)` for the derivation-value length. -/
theorem derive_key_check_order_witness :
    (sim_derive_key [] 40 [] 7 5).1 = UTA_INVALID_KEY_SLOT ∧
    (TpmIbm.tpm_derive_key TpmIbm.allOk [] 40 [] 7 5).1 =
        UTA_INVALID_KEY_SLOT ∧
    (sim_derive_key [] 40 [] 7 0).1 = UTA_INVALID_DV_LENGTH ∧
    (TpmTcg.tpm_derive_key TpmTcg.allOk [] 40 [] 7 0).1 =
        UTA_INVALID_DV_LENGTH := by
  refine ⟨?_, ?_, ?_, ?_⟩
  · exact ((derive_key_check_order TpmIbm.allOk TpmTcg.allOk [] [] 40 7 5).1
      (by decide)).1
  · exact ((derive_key_check_order TpmIbm.allOk TpmTcg.allOk [] [] 40 7 5).1
      (by decide)).2.1
  · exact ((derive_key_check_order TpmIbm.allOk TpmTcg.allOk [] [] 40 7 0).2.1
      (by decide) (by decide)).1
  · exact ((derive_key_check_order TpmIbm.allOk TpmTcg.allOk [] [] 40 7 0).2.1
      (by decide) (by decide)).2.2

/-! ## C2 — `derive_key` argument validation and the error-code values

The claim reads each of its three "whenever" clauses unconditionally; the
code checks `key_slot` first, so a call whose slot *and* derivation-value
length are both invalid returns the slot code, not the dv-length code. -/

/-- **C2 (counterexample).**  At `key_slot = 2`, `len_dv = 7` all three
backends return `UTA_INVALID_KEY_SLOT`, while the claim's clause
"invalid-derivation-value-length (0x02) whenever `len_dv` is not 8"
demands `UTA_INVALID_DV_LENGTH`. -/
theorem derive_key_dv_clause_counterexample :
    (sim_derive_key [] 32 [] 7 2).1 = UTA_INVALID_KEY_SLOT ∧
    (TpmIbm.tpm_derive_key TpmIbm.allOk [] 32 [] 7 2).1 =
        UTA_INVALID_KEY_SLOT ∧
    (TpmTcg.tpm_derive_key TpmTcg.allOk [] 32 [] 7 2).1 =
        UTA_INVALID_KEY_SLOT ∧
    UTA_INVALID_KEY_SLOT ≠ UTA_INVALID_DV_LENGTH := by
  refine ⟨rfl, rfl, rfl, by decide⟩

/-- **C2 (amended).**  In all three backends the parameter checks run
purely on the arguments and before any transport or lock access — the
entire call result, including the untouched lock and buffer, is determined
by the arguments alone, independently of the device environment — with
`UTA_INVALID_KEY_SLOT` for a slot other than 0/1, `UTA_INVALID_DV_LENGTH`
for a valid slot with `len_dv ≠ 8`, and `UTA_INVALID_KEY_LENGTH` for a
valid slot and dv-length with `len_key > 32`; and the numeric codes are
success `0x00`, invalid key length `0x01`, invalid dv length `0x02`,
invalid key slot `0x03`, generic trust-anchor error `0x10`. -/
theorem derive_key_validation_immediate (devI : TpmIbm.Dev)
    (devT : TpmTcg.Dev) (buf dv : List Nat) (len_key len_dv key_slot : Nat) :
    (key_slot > 1 →
      sim_derive_key buf len_key dv len_dv key_slot =
          (UTA_INVALID_KEY_SLOT, buf) ∧
      TpmIbm.tpm_derive_key devI buf len_key dv len_dv key_slot =
          (UTA_INVALID_KEY_SLOT, false, buf) ∧
      TpmTcg.tpm_derive_key devT buf len_key dv len_dv key_slot =
          (UTA_INVALID_KEY_SLOT, false, buf)) ∧
    (key_slot ≤ 1 → len_dv ≠ 8 →
      sim_derive_key buf len_key dv len_dv key_slot =
          (UTA_INVALID_DV_LENGTH, buf) ∧
      TpmIbm.tpm_derive_key devI buf len_key dv len_dv key_slot =
          (UTA_INVALID_DV_LENGTH, false, buf) ∧
      TpmTcg.tpm_derive_key devT buf len_key dv len_dv key_slot =
          (UTA_INVALID_DV_LENGTH, false, buf)) ∧
    (key_slot ≤ 1 → len_dv = 8 → len_key > 32 →
      sim_derive_key buf len_key dv len_dv key_slot =
          (UTA_INVALID_KEY_LENGTH, buf) ∧
      TpmIbm.tpm_derive_key devI buf len_key dv len_dv key_slot =
          (UTA_INVALID_KEY_LENGTH, false, buf) ∧
      TpmTcg.tpm_derive_key devT buf len_key dv len_dv key_slot =
          (UTA_INVALID_KEY_LENGTH, false, buf)) ∧
    (UTA_SUCCESS = 0x00 ∧ UTA_INVALID_KEY_LENGTH = 0x01 ∧
      UTA_INVALID_DV_LENGTH = 0x02 ∧ UTA_INVALID_KEY_SLOT = 0x03 ∧
      UTA_TA_ERROR = 0x10) := by
  refine ⟨fun h => ?_, fun h h' => ?_, fun h h' h'' => ?_,
    ⟨rfl, rfl, rfl, rfl, rfl⟩⟩
  · simp [sim_derive_key, TpmIbm.tpm_derive_key, TpmTcg.tpm_derive_key,
      USED_KEY_SLOTS, DERIV_VAL_LEN, KEY_LEN, h]
  · have hns : ¬ 1 < key_slot := by omega
    simp [sim_derive_key, TpmIbm.tpm_derive_key, TpmTcg.tpm_derive_key,
      USED_KEY_SLOTS, DERIV_VAL_LEN, KEY_LEN, hns, h']
  · have hns : ¬ 1 < key_slot := by omega
    simp [sim_derive_key, TpmIbm.tpm_derive_key, TpmTcg.tpm_derive_key,
      USED_KEY_SLOTS, DERIV_VAL_LEN, KEY_LEN, hns, h', h'']

/-- Witness for the amended C2 at `(slot 3)`, `(slot 1, len_dv 9)` and
`(slot 1, len_dv 8, len_key 33)`. -/
theorem derive_key_validation_immediate_witness :
    sim_derive_key [7] 0 [] 0 3 = (UTA_INVALID_KEY_SLOT, [7]) ∧
    TpmIbm.tpm_derive_key TpmIbm.allOk [7] 0 [] 9 1 =
        (UTA_INVALID_DV_LENGTH, false, [7]) ∧
    TpmTcg.tpm_derive_key TpmTcg.allOk [7] 33 [0, 1, 2, 3, 4, 5, 6, 7] 8 1 =
        (UTA_INVALID_KEY_LENGTH, false, [7]) := by
  refine ⟨?_, ?_, ?_⟩
  · exact ((derive_key_validation_immediate TpmIbm.allOk TpmTcg.allOk
      [7] [] 0 0 3).1 (by decide)).1
  · exact ((derive_key_validation_immediate TpmIbm.allOk TpmTcg.allOk
      [7] [] 0 9 1).2.1 (by decide) (by decide)).2.1
  · exact ((derive_key_validation_immediate TpmIbm.allOk TpmTcg.allOk
      [7] [0, 1, 2, 3, 4, 5, 6, 7] 33 8 1).2.2.1 (by decide) (by decide)
      (by decide)).2.2

/-! ## Random-collection loop lemmas -/

theorem randLoop_induction (resp : Nat → Nat → Option (List Nat))
    (target : Nat) (P : RandState → Prop)
    (hstep : ∀ s, randGuard target s = true → P s →
      P (randStep resp target s)) :
    ∀ fuel s, P s → P (randLoop resp target fuel s) := by
  intro fuel
  induction fuel with
  | zero => intro s hP; exact hP
  | succ n ih =>
    intro s hP
    unfold randLoop
    by_cases h : randGuard target s = true
    · simpa [h] using ih _ (hstep s h hP)
    · simpa [h] using hP

theorem randLoop_of_guard_false (resp : Nat → Nat → Option (List Nat))
    (target fuel : Nat) (s : RandState)
    (h : randGuard target s = false) :
    randLoop resp target fuel s = s := by
  cases fuel <;> simp [randLoop, h]

theorem copyRandomBytes_spec (target : Nat) (bytes : List Nat) :
    ∀ (c : Nat) (buf : List Nat), c ≤ target →
      c ≤ (copyRandomBytes target (c, buf) bytes).1 ∧
      (copyRandomBytes target (c, buf) bytes).1 ≤ target ∧
      (copyRandomBytes target (c, buf) bytes).2.length = buf.length ∧
      (copyRandomBytes target (c, buf) bytes).2.drop target =
        buf.drop target := by
  induction bytes with
  | nil => exact fun c buf h => ⟨le_refl _, h, rfl, rfl⟩
  | cons b bs ih =>
    intro c buf h
    by_cases hc : c < target
    · have step : copyRandomBytes target (c, buf) (b :: bs) =
          copyRandomBytes target (c + 1, buf.set c b) bs := by
        simp [copyRandomBytes, hc]
      rw [step]
      obtain ⟨h1, h2, h3, h4⟩ := ih (c + 1) (buf.set c b) (by omega)
      refine ⟨by omega, h2, by rw [h3, List.length_set], ?_⟩
      rw [h4, List.drop_set]
      simp [hc]
    · have step : copyRandomBytes target (c, buf) (b :: bs) =
          copyRandomBytes target (c, buf) bs := by
        simp [copyRandomBytes, hc]
      rw [step]
      exact ih c buf h

theorem copyRandomBytes_progress (target b c : Nat) (bs buf : List Nat)
    (h : c < target) :
    c + 1 ≤ (copyRandomBytes target (c, buf) (b :: bs)).1 := by
  have step : copyRandomBytes target (c, buf) (b :: bs) =
      copyRandomBytes target (c + 1, buf.set c b) bs := by
    simp [copyRandomBytes, h]
  rw [step]
  exact (copyRandomBytes_spec target bs (c + 1) (buf.set c b) (by omega)).1

/-- The loop invariant: the copy count never passes the target, the buffer
keeps its length, positions at and beyond the target are never written, and
every executed round requested exactly `target - copied`. -/
def RandInv (target : Nat) (buf0 : List Nat) (s : RandState) : Prop :=
  s.copied ≤ target ∧ s.buf.length = buf0.length ∧
    s.buf.drop target = buf0.drop target ∧
    ∀ p ∈ s.reqs, p.1 < target ∧ p.2 = w32 (target - p.1)

theorem randStep_inv (resp : Nat → Nat → Option (List Nat))
    (target : Nat) (buf0 : List Nat) (s : RandState)
    (hg : randGuard target s = true) (h : RandInv target buf0 s) :
    RandInv target buf0 (randStep resp target s) := by
  obtain ⟨h1, h2, h3, h4⟩ := h
  have hlt : s.copied < target := by
    have := of_decide_eq_true (Bool.and_elim_right hg)
    exact this
  unfold randStep
  cases hr : resp s.round (w32 (target - s.copied)) with
  | none =>
    refine ⟨h1, h2, h3, ?_⟩
    intro p hp
    rcases List.mem_append.1 hp with hp | hp
    · exact h4 p hp
    · rcases List.mem_singleton.1 hp with rfl
      exact ⟨hlt, rfl⟩
  | some bytes =>
    obtain ⟨g1, g2, g3, g4⟩ :=
      copyRandomBytes_spec target bytes s.copied s.buf h1
    refine ⟨g2, by rw [g3, h2], by rw [g4, h3], ?_⟩
    intro p hp
    rcases List.mem_append.1 hp with hp | hp
    · exact h4 p hp
    · rcases List.mem_singleton.1 hp with rfl
      exact ⟨hlt, rfl⟩

theorem randLoop_inv (resp : Nat → Nat → Option (List Nat))
    (target fuel : Nat) (buf0 : List Nat) :
    RandInv target buf0 (randLoop resp target fuel (randInit buf0)) :=
  randLoop_induction resp target (RandInv target buf0)
    (randStep_inv resp target buf0) fuel (randInit buf0)
    ⟨Nat.zero_le _, rfl, rfl, by intro p hp; cases hp⟩

/-- A completed successful collection copied exactly `target` bytes. -/
theorem randLoop_exit_copied (resp : Nat → Nat → Option (List Nat))
    (target fuel : Nat) (buf0 : List Nat)
    (hg : randGuard target (randLoop resp target fuel (randInit buf0)) = false)
    (hok : (randLoop resp target fuel (randInit buf0)).ok = true) :
    (randLoop resp target fuel (randInit buf0)).copied = target := by
  have h1 := (randLoop_inv resp target fuel buf0).1
  unfold randGuard at hg
  rw [hok] at hg
  simp at hg
  omega

/-- With a response oracle that never returns success with zero bytes, the
loop releases its guard within `target - copied` further rounds: either an
error round stops it or each round copies at least one byte. -/
theorem randLoop_terminates_of_progress (resp : Nat → Nat → Option (List Nat))
    (target : Nat)
    (hresp : ∀ i r, resp i r = none ∨ ∃ b bs, resp i r = some (b :: bs)) :
    ∀ fuel s, target - s.copied < fuel →
      randGuard target (randLoop resp target fuel s) = false := by
  intro fuel
  induction fuel with
  | zero => intro s h; omega
  | succ n ih =>
    intro s h
    unfold randLoop
    by_cases hg : randGuard target s = true
    · simp only [hg, if_true]
      have hlt : s.copied < target :=
        of_decide_eq_true (Bool.and_elim_right hg)
      rcases hresp s.round (w32 (target - s.copied)) with hr | ⟨b, bs, hr⟩
      · have hstep : randGuard target (randStep resp target s) = false := by
          unfold randStep
          rw [hr]
          simp [randGuard]
        rw [randLoop_of_guard_false resp target n _ hstep]
        exact hstep
      · have hstep : s.copied + 1 ≤ (randStep resp target s).copied := by
          unfold randStep
          rw [hr]
          exact copyRandomBytes_progress target b s.copied bs s.buf hlt
        exact ih (randStep resp target s) (by omega)
    · simp only [hg, if_false]
      exact Bool.not_eq_true _ ▸ Bool.of_not_eq_true hg

/-! ## C3 — a successful `get_random` writes exactly `len` bytes

The claim holds for the simulation backend at every length and for the
hardware backends at every length below `2^32`; it fails as stated because
the IBM variant converts the `size_t` length to a `uint32_t` request count,
so `len = 2^32` succeeds after writing zero bytes. -/

/-- **C3 (counterexample).**  On the IBM backend a request for `2^32` bytes
returns success immediately — `uint32_t bytesRequested = len_random`
truncates the target to 0 — leaving the output buffer untouched, although
the claim requires exactly `2^32` bytes of randomness to be written. -/
theorem tpm_get_random_len_2pow32_counterexample :
    TpmIbm.tpm_get_random TpmIbm.allOk [5, 5, 5] (2 ^ 32) 1 =
      some (UTA_SUCCESS, false, [5, 5, 5]) ∧ (2 : Nat) ^ 32 ≠ 0 := by
  exact ⟨rfl, by decide⟩

/-- **C3 (amended).**  A successful `get_random` call writes exactly `len`
backend-sourced bytes to the output buffer and leaves the rest untouched:
on the simulation backend for every `len` below `2^31` (beyond which the C
`int` loop counter overflows), and on the hardware backends for every
`len` below `2^32`, where the collection loop requests
`remaining = target - copied` on each round and accumulates until `copied`
equals the target. -/
theorem get_random_success_exact_len (stream : Nat → Nat)
    (devI : TpmIbm.Dev) (devT : TpmTcg.Dev) (buf : List Nat)
    (len fuel : Nat) :
    (len < 2 ^ 31 →
      sim_get_random stream buf len =
        some (UTA_SUCCESS,
          ((List.range len).map fun i => stream i % 256) ++ buf.drop len) ∧
      ((List.range len).map fun i => stream i % 256).length = len) ∧
    (len < 2 ^ 32 →
      (∀ s, TpmIbm.tpm_get_rand devI buf len fuel = some s → s.ok = true →
        s.copied = len ∧ s.buf.length = buf.length ∧
          s.buf.drop len = buf.drop len ∧
          ∀ p ∈ s.reqs, p.1 < len ∧ p.2 = len - p.1) ∧
      (∀ r, TpmIbm.tpm_get_random devI buf len fuel = some r →
        r.1 = UTA_SUCCESS →
        r.2.2.length = buf.length ∧ r.2.2.drop len = buf.drop len) ∧
      (∀ r, TpmTcg.tpm_get_random devT buf len fuel = some r →
        r.1 = UTA_SUCCESS →
        r.2.2.length = buf.length ∧ r.2.2.drop len = buf.drop len)) := by
  refine ⟨fun hsim => ?_, fun hlen => ?_⟩
  · refine ⟨?_, by simp⟩
    unfold sim_get_random
    rw [if_pos hsim]
    simp [overwriteFirst]
  have hw : w32 len = len := Nat.mod_eq_of_lt hlen
  have hloop : ∀ resp fuel',
      randGuard len (randLoop resp len fuel' (randInit buf)) = false →
      (randLoop resp len fuel' (randInit buf)).ok = true →
      (randLoop resp len fuel' (randInit buf)).copied = len ∧
        (randLoop resp len fuel' (randInit buf)).buf.length = buf.length ∧
        (randLoop resp len fuel' (randInit buf)).buf.drop len =
          buf.drop len ∧
        ∀ p ∈ (randLoop resp len fuel' (randInit buf)).reqs,
          p.1 < len ∧ p.2 = len - p.1 := by
    intro resp fuel' hg hok
    obtain ⟨h1, h2, h3, h4⟩ := randLoop_inv resp len fuel' buf
    refine ⟨randLoop_exit_copied resp len fuel' buf hg hok, h2, h3, ?_⟩
    intro p hp
    obtain ⟨hp1, hp2⟩ := h4 p hp
    refine ⟨hp1, ?_⟩
    rw [hp2]
    exact Nat.mod_eq_of_lt (by omega)
  refine ⟨?_, ?_, ?_⟩
  · intro s hs hok
    unfold TpmIbm.tpm_get_rand at hs
    rw [hw] at hs
    by_cases hg : randGuard len
        (randLoop devI.randResp len fuel (randInit buf)) = true
    · rw [if_pos] at hs
      · cases hs
      · exact hg
    · rw [if_neg hg] at hs
      cases hs
      exact hloop devI.randResp fuel (Bool.of_not_eq_true hg) hok
  · intro r hr hrc
    unfold TpmIbm.tpm_get_random at hr
    by_cases hl : (!devI.lockOk) = true
    · rw [if_pos hl] at hr
      cases hr
      simp [UTA_TA_ERROR, UTA_SUCCESS] at hrc
    · rw [if_neg hl] at hr
      cases hq : TpmIbm.tpm_get_rand devI buf len fuel with
      | none => rw [hq] at hr; cases hr
      | some s =>
        rw [hq] at hr
        cases hr
        by_cases hok : s.ok = true
        · unfold TpmIbm.tpm_get_rand at hq
          rw [hw] at hq
          by_cases hg : randGuard len
              (randLoop devI.randResp len fuel (randInit buf)) = true
          · rw [if_pos hg] at hq; cases hq
          · rw [if_neg hg] at hq
            cases hq
            obtain ⟨g1, g2, g3, g4⟩ :=
              hloop devI.randResp fuel (Bool.of_not_eq_true hg) hok
            exact ⟨g2, g3⟩
        · simp only [Bool.not_eq_true] at hok
          simp [hok, UTA_TA_ERROR, UTA_SUCCESS] at hrc
  · intro r hr hrc
    unfold TpmTcg.tpm_get_random at hr
    by_cases hl : (!devT.lockOk) = true
    · rw [if_pos hl] at hr
      cases hr
      simp [UTA_TA_ERROR, UTA_SUCCESS] at hrc
    · rw [if_neg hl] at hr
      by_cases ha : (!devT.setAttrOk) = true
      · rw [if_pos ha] at hr
        cases hr
        simp [UTA_TA_ERROR, UTA_SUCCESS] at hrc
      · rw [if_neg ha] at hr
        by_cases hg : randGuard len
            (randLoop devT.randResp len fuel (randInit buf)) = true
        · rw [if_pos hg] at hr; cases hr
        · rw [if_neg hg] at hr
          by_cases hok : (randLoop devT.randResp len fuel
              (randInit buf)).ok = true
          · rw [if_neg (by simp [hok])] at hr
            cases hr
            obtain ⟨g1, g2, g3, g4⟩ :=
              hloop devT.randResp fuel (Bool.of_not_eq_true hg) hok
            exact ⟨g2, g3⟩
          · rw [if_pos (by simp [Bool.not_eq_true] at hok ⊢; exact hok)] at hr
            cases hr
            simp [UTA_TA_ERROR, UTA_SUCCESS] at hrc

/-- Witness for the amended C3: a 2-byte request against the healthy device
completes in one round having written exactly 2 bytes, on the simulation
backend and the IBM hardware backend. -/
theorem get_random_success_exact_len_witness :
    sim_get_random (fun i => i) [7, 7, 7] 2 =
      some (UTA_SUCCESS, ([0, 1] : List Nat) ++ [7, 7, 7].drop 2) ∧
    ((UTA_SUCCESS, false, [0, 0, 7]) : Nat × Bool × List Nat).2.2.length =
        ([7, 7, 7] : List Nat).length ∧
    ((UTA_SUCCESS, false, [0, 0, 7]) : Nat × Bool × List Nat).2.2.drop 2 =
      [7, 7, 7].drop 2 := by
  have h := get_random_success_exact_len (fun i => i) TpmIbm.allOk
    TpmTcg.allOk [7, 7, 7] 2 3
  refine ⟨?_, (h.2 (by decide)).2.1 (UTA_SUCCESS, false, [0, 0, 7])
    (by decide) rfl⟩
  have hs := (h.1 (by decide)).1
  simpa using hs

/-! ## C5 — short rounds are not errors, but zero-progress rounds recur
forever

Both hardware loops are `randLoop` (IBM with the truncated target, TCG with
the plain one).  A successful round that returns fewer bytes than requested
— but at least one — is not an error and advances the collection, and a
failed round stops the loop; but the code contains no retry bound: a device
that keeps answering success with zero bytes keeps the loop spinning. -/

/-- The concrete response sequence of a device that always answers success
carrying an empty byte buffer. -/
def zeroByteResp : Nat → Nat → Option (List Nat) := fun _ _ => some []

/-- Non-termination of the concrete 20-byte collection against
`zeroByteResp`: after any number of rounds the loop guard is still set and
nothing has been copied — the C loop never returns on this response
sequence. -/
def zeroProgressLoopSpins : Prop :=
  ∀ fuel, randGuard 20 (randLoop zeroByteResp 20 fuel
      (randInit (List.replicate 20 7))) = true ∧
    (randLoop zeroByteResp 20 fuel (randInit (List.replicate 20 7))).copied = 0

/-- **C5 (counterexample).**  Against a device that always returns success
with an empty byte buffer, a 20-byte collection never releases the loop
guard, however many rounds run: the loop does not terminate for this
response sequence. -/
theorem rand_loop_zero_progress_counterexample : zeroProgressLoopSpins := by
  intro fuel
  have h := randLoop_induction zeroByteResp 20
    (fun s => s.ok = true ∧ s.copied = 0)
    (by
      intro s hg hs
      unfold randStep zeroByteResp
      simp [copyRandomBytes, hs.2])
    fuel (randInit (List.replicate 20 7)) ⟨rfl, rfl⟩
  refine ⟨?_, h.2⟩
  unfold randGuard
  rw [h.1, h.2]
  simp

/-- **C5 (amended).**  In the hardware backends' collection loop, a
successful round that returns fewer bytes than requested but at least one
is not treated as an error — the loop stays successful and strictly
advances — and a failed round stops the loop immediately (the error is
propagated); if every device response either fails or carries at least one
byte, the loop releases its guard within `target` rounds of fuel beyond
the bytes still missing.  (No bound exists for zero-byte success rounds;
see the counterexample.) -/
theorem rand_loop_progress_and_termination
    (resp : Nat → Nat → Option (List Nat)) (target : Nat) (s : RandState) :
    (randGuard target s = true →
      ∀ b bs, resp s.round (w32 (target - s.copied)) = some (b :: bs) →
        (randStep resp target s).ok = true ∧
          s.copied < (randStep resp target s).copied) ∧
    (resp s.round (w32 (target - s.copied)) = none →
      ∀ fuel, randLoop resp target fuel (randStep resp target s) =
        randStep resp target s ∧ (randStep resp target s).ok = false) ∧
    ((∀ i r, resp i r = none ∨ ∃ b bs, resp i r = some (b :: bs)) →
      ∀ fuel, target - s.copied < fuel →
        randGuard target (randLoop resp target fuel s) = false) := by
  refine ⟨?_, ?_, ?_⟩
  · intro hg b bs hr
    have hlt : s.copied < target :=
      of_decide_eq_true (Bool.and_elim_right hg)
    constructor
    · unfold randStep
      rw [hr]
    · unfold randStep
      rw [hr]
      exact copyRandomBytes_progress target b s.copied bs s.buf hlt
  · intro hr fuel
    have hok : (randStep resp target s).ok = false := by
      unfold randStep
      rw [hr]
    refine ⟨randLoop_of_guard_false resp target fuel _ ?_, hok⟩
    unfold randGuard
    rw [hok]
    rfl
  · intro hresp fuel h
    exact randLoop_terminates_of_progress resp target hresp fuel s h

/-- Witness for the amended C5: a concrete state in mid-collection (5 of 20
bytes copied), a device answering 1 byte to a 15-byte request, and the
termination bound for the always-one-byte device. -/
theorem rand_loop_progress_and_termination_witness :
    ((randStep (fun _ _ => some [3]) 20 ⟨5, true, List.replicate 20 0, [], 0⟩).ok
        = true ∧
      (5 : Nat) <
        (randStep (fun _ _ => some [3]) 20
          ⟨5, true, List.replicate 20 0, [], 0⟩).copied) ∧
    randGuard 20 (randLoop (fun _ _ => some [3]) 20 21
      (randInit (List.replicate 20 0))) = false := by
  constructor
  · exact (rand_loop_progress_and_termination (fun _ _ => some [3]) 20
      ⟨5, true, List.replicate 20 0, [], 0⟩).1 (by decide) 3 [] rfl
  · exact (rand_loop_progress_and_termination (fun _ _ => some [3]) 20
      (randInit (List.replicate 20 0))).2.2
      (fun i r => Or.inr ⟨3, [], rfl⟩) 21 (by decide)

/-! ## C4 — UUID shape: the hardware backends force the RFC 4122 bits, the
simulation backend does not

`uta.h` documents `get_device_uuid` as returning "a 16 Byte uuid which is
formatted as defined by RFC4122 … a version 4 UUID", and both hardware
backends overwrite the version/variant bits accordingly; `sim_get_device_uuid`
returns the hex-decoded `/etc/machine-id` bytes verbatim, so on the
simulation backend the claimed bit pattern does not hold. -/

/-- **C4 (code bug).**  With `/etc/machine-id` containing 32 ASCII `'0'`
characters, the simulation backend returns success and an all-zero UUID:
byte 6's high nibble is 0, not 0x4, and byte 8's top two bits are 00, not
10 — the RFC 4122 overwrite documented in `uta.h` is missing from
`sim_get_device_uuid`. -/
theorem sim_get_device_uuid_not_rfc4122 :
    sim_get_device_uuid (some (List.replicate 32 '0'))
        (List.replicate 16 0xAA) = (UTA_SUCCESS, List.replicate 16 0) ∧
    (List.replicate 16 (0 : Nat)).getD 6 0 / 16 ≠ 4 ∧
    (List.replicate 16 (0 : Nat)).getD 8 0 / 64 ≠ 2 := by
  refine ⟨by decide, by decide, by decide⟩

/-! ## C8 — `get_device_uuid` is deterministic and idempotent -/

theorem readHexBytes_length (n : Nat) :
    ∀ (cs : List Char) (out : List Nat),
      readHexBytes cs n = some out → out.length = n := by
  induction n with
  | zero =>
    intro cs out h
    unfold readHexBytes at h
    cases h
    rfl
  | succ n ih =>
    intro cs out h
    unfold readHexBytes at h
    cases h1 : hexPair? (cs.getD 0 ' ') (cs.getD 1 ' ') with
    | none => rw [h1] at h; cases h
    | some v =>
      rw [h1] at h
      cases h2 : readHexBytes (cs.drop 2) n with
      | none => rw [h2] at h; cases h
      | some rest =>
        rw [h2] at h
        cases h
        simp [ih _ _ h2]

theorem overwriteFirst_take (u src : List Nat) (n : Nat)
    (h : n ≤ src.length) :
    (overwriteFirst u src n).take n = src.take n := by
  unfold overwriteFirst
  exact List.take_left' (by rw [List.length_take]; omega)

/-- Taking the 16 UUID bytes out of a formatted buffer depends only on the
digest, not on the buffer's previous contents. -/
theorem rfc4122_take16 (u d : List Nat) (hd : 16 ≤ d.length) :
    (rfc4122Format (overwriteFirst u d 16)).take 16 =
      rfc4122Format (d.take 16) := by
  have hx : (d.take 16).length = 16 := by rw [List.length_take]; omega
  simp only [overwriteFirst, rfc4122Format]
  rw [List.getD_append _ _ _ 6 (by omega)]
  rw [List.set_append, if_pos (by omega)]
  rw [List.getD_append _ _ _ 8 (by rw [List.length_set]; omega)]
  rw [List.set_append, if_pos (by rw [List.length_set]; omega)]
  exact List.take_left' (by rw [List.length_set, List.length_set]; omega)

/-- **C8.**  On every backend `get_device_uuid` is deterministic and
idempotent: two sequential successful calls against the same device (same
machine-id file for the simulation backend; same endorsement key and
device HMAC engine for the hardware backends, whatever the per-call
failure flags and caller buffers) return the same 16 UUID bytes — and on
the simulation backend a second call with the same file cannot fail if the
first succeeded. -/
theorem get_device_uuid_deterministic (mid : Option (List Char))
    (u1 u2 : List Nat) (devI devI' : TpmIbm.Dev)
    (hek : devI.ekKey = devI'.ekKey) (hfn : devI.devHmac = devI'.devHmac)
    (devT devT' : TpmTcg.Dev) (hekT : devT.ekKey = devT'.ekKey)
    (hfnT : devT.devHmac = devT'.devHmac) :
    ((sim_get_device_uuid mid u1).1 = UTA_SUCCESS →
      (sim_get_device_uuid mid u2).1 = UTA_SUCCESS ∧
      (sim_get_device_uuid mid u1).2.take 16 =
        (sim_get_device_uuid mid u2).2.take 16) ∧
    ((TpmIbm.tpm_get_device_uuid devI u1).1 = UTA_SUCCESS →
      (TpmIbm.tpm_get_device_uuid devI' u2).1 = UTA_SUCCESS →
      (TpmIbm.tpm_get_device_uuid devI u1).2.2.take 16 =
        (TpmIbm.tpm_get_device_uuid devI' u2).2.2.take 16) ∧
    ((TpmTcg.tpm_get_device_uuid devT u1).1 = UTA_SUCCESS →
      (TpmTcg.tpm_get_device_uuid devT' u2).1 = UTA_SUCCESS →
      (TpmTcg.tpm_get_device_uuid devT u1).2.2.take 16 =
        (TpmTcg.tpm_get_device_uuid devT' u2).2.2.take 16) := by
  refine ⟨?_, ?_, ?_⟩
  · intro h1
    cases mid with
    | none => simp [sim_get_device_uuid, UTA_TA_ERROR, UTA_SUCCESS] at h1
    | some content =>
      simp only [sim_get_device_uuid] at h1 ⊢
      by_cases hl : (min 32 content.length) ≠ 32
      · rw [if_pos hl] at h1
        simp [UTA_TA_ERROR, UTA_SUCCESS] at h1
      · rw [if_neg hl] at h1
        cases hr : readHexBytes content 16 with
        | none => rw [hr] at h1; simp [UTA_TA_ERROR, UTA_SUCCESS] at h1
        | some tmp =>
          have hlen : tmp.length = 16 := readHexBytes_length 16 content tmp hr
          simp only [if_neg hl, hr]
          refine ⟨trivial, ?_⟩
          rw [overwriteFirst_take _ _ _ (by omega),
            overwriteFirst_take _ _ _ (by omega)]
  · intro h1 h2
    simp only [TpmIbm.tpm_get_device_uuid] at h1 h2 ⊢
    by_cases hl : (!devI.lockOk) = true
    · rw [if_pos hl] at h1
      simp [UTA_TA_ERROR, UTA_SUCCESS] at h1
    · rw [if_neg hl] at h1
      by_cases hc : (!devI.createEkOk) = true
      · rw [if_pos hc] at h1
        simp [UTA_TA_ERROR, UTA_SUCCESS] at h1
      · rw [if_neg hc] at h1
        by_cases hl' : (!devI'.lockOk) = true
        · rw [if_pos hl'] at h2
          simp [UTA_TA_ERROR, UTA_SUCCESS] at h2
        · rw [if_neg hl'] at h2
          by_cases hc' : (!devI'.createEkOk) = true
          · rw [if_pos hc'] at h2
            simp [UTA_TA_ERROR, UTA_SUCCESS] at h2
          · rw [if_neg hc'] at h2
            cases hm : TpmIbm.calcHmac devI devI.ekKey DEVICEID with
            | none => rw [hm] at h1; simp [UTA_TA_ERROR, UTA_SUCCESS] at h1
            | some d1 =>
              cases hm' : TpmIbm.calcHmac devI' devI'.ekKey DEVICEID with
              | none =>
                rw [hm'] at h2
                simp [UTA_TA_ERROR, UTA_SUCCESS] at h2
              | some d2 =>
                simp only [if_neg hl, if_neg hc, hm, if_neg hl',
                  if_neg hc', hm']
                have hd : d1 = d2 := by
                  unfold TpmIbm.calcHmac at hm hm'
                  split at hm
                  · split at hm'
                    · cases hm
                      cases hm'
                      rw [hek, hfn]
                    · cases hm'
                  · cases hm
                rw [rfc4122_take16 _ _
                    (by rw [calcHmac_length devI _ _ _ hm]; omega),
                  rfc4122_take16 _ _
                    (by rw [calcHmac_length devI' _ _ _ hm']; omega), hd]
  · intro h1 h2
    simp only [TpmTcg.tpm_get_device_uuid] at h1 h2 ⊢
    by_cases g1 : (!devT.lockOk) = true
    · rw [if_pos g1] at h1
      simp [UTA_TA_ERROR, UTA_SUCCESS] at h1
    · rw [if_neg g1] at h1
      by_cases g2 : (!devT.createEkOk) = true
      · rw [if_pos g2] at h1
        simp [UTA_TA_ERROR, UTA_SUCCESS] at h1
      · rw [if_neg g2] at h1
        by_cases g3 : (!devT.setAuthOk) = true
        · rw [if_pos g3] at h1
          simp [UTA_TA_ERROR, UTA_SUCCESS] at h1
        · rw [if_neg g3] at h1
          by_cases g4 : (!devT.setAttrOk) = true
          · rw [if_pos g4] at h1
            simp [UTA_TA_ERROR, UTA_SUCCESS] at h1
          · rw [if_neg g4] at h1
            by_cases g5 : (!devT.hmacOk) = true
            · rw [if_pos g5] at h1
              simp [UTA_TA_ERROR, UTA_SUCCESS] at h1
            · rw [if_neg g5] at h1
              by_cases g6 : (devT.devHmac devT.ekKey DEVICEID).length < 16
              · rw [if_pos g6] at h1
                simp [UTA_TA_ERROR, UTA_SUCCESS] at h1
              · rw [if_neg g6] at h1
                by_cases g7 : (!devT.flushEkOk) = true
                · rw [if_pos g7] at h1
                  simp [UTA_TA_ERROR, UTA_SUCCESS] at h1
                · by_cases k1 : (!devT'.lockOk) = true
                  · rw [if_pos k1] at h2
                    simp [UTA_TA_ERROR, UTA_SUCCESS] at h2
                  · rw [if_neg k1] at h2
                    by_cases k2 : (!devT'.createEkOk) = true
                    · rw [if_pos k2] at h2
                      simp [UTA_TA_ERROR, UTA_SUCCESS] at h2
                    · rw [if_neg k2] at h2
                      by_cases k3 : (!devT'.setAuthOk) = true
                      · rw [if_pos k3] at h2
                        simp [UTA_TA_ERROR, UTA_SUCCESS] at h2
                      · rw [if_neg k3] at h2
                        by_cases k4 : (!devT'.setAttrOk) = true
                        · rw [if_pos k4] at h2
                          simp [UTA_TA_ERROR, UTA_SUCCESS] at h2
                        · rw [if_neg k4] at h2
                          by_cases k5 : (!devT'.hmacOk) = true
                          · rw [if_pos k5] at h2
                            simp [UTA_TA_ERROR, UTA_SUCCESS] at h2
                          · rw [if_neg k5] at h2
                            by_cases k6 :
                                (devT'.devHmac devT'.ekKey DEVICEID).length
                                  < 16
                            · rw [if_pos k6] at h2
                              simp [UTA_TA_ERROR, UTA_SUCCESS] at h2
                            · by_cases k7 : (!devT'.flushEkOk) = true
                              · rw [if_neg k6, if_pos k7] at h2
                                simp [UTA_TA_ERROR, UTA_SUCCESS] at h2
                              · simp only [if_neg g1, if_neg g2, if_neg g3,
                                  if_neg g4, if_neg g5, if_neg g6,
                                  if_neg g7, if_neg k1, if_neg k2,
                                  if_neg k3, if_neg k4, if_neg k5,
                                  if_neg k6, if_neg k7]
                                rw [rfc4122_take16 _ _ (by omega),
                                  rfc4122_take16 _ _ (by omega), hekT, hfnT]

/-- A device whose HMAC engine returns a fixed digest, for cheap witness
evaluation. -/
def devConstIbm : TpmIbm.Dev :=
  { TpmIbm.allOk with devHmac := fun _ _ => List.replicate 32 5 }

/-- A TCG device with the same fixed digest. -/
def devConstTcg : TpmTcg.Dev :=
  { TpmTcg.allOk with devHmac := fun _ _ => List.replicate 32 5 }

/-- Witness for C8: the simulation backend over a fixed machine-id and the
two hardware devices, each called twice with different caller buffers. -/
theorem get_device_uuid_deterministic_witness :
    (sim_get_device_uuid (some (List.replicate 32 '0'))
        (List.replicate 16 3)).2.take 16 =
      (sim_get_device_uuid (some (List.replicate 32 '0'))
        (List.replicate 20 4)).2.take 16 ∧
    (TpmIbm.tpm_get_device_uuid devConstIbm (List.replicate 16 3)).2.2.take 16 =
      (TpmIbm.tpm_get_device_uuid devConstIbm (List.replicate 20 4)).2.2.take
        16 ∧
    (TpmTcg.tpm_get_device_uuid devConstTcg (List.replicate 16 3)).2.2.take 16 =
      (TpmTcg.tpm_get_device_uuid devConstTcg (List.replicate 20 4)).2.2.take
        16 := by
  have h := get_device_uuid_deterministic (some (List.replicate 32 '0'))
    (List.replicate 16 3) (List.replicate 20 4) devConstIbm devConstIbm rfl
    rfl devConstTcg devConstTcg rfl rfl
  exact ⟨(h.1 (by decide)).2, h.2.1 (by decide) (by decide),
    h.2.2 (by decide) (by decide)⟩

/-! ## C6 — lock acquisition failure is fatal; lock release failure is
*ignored*, not fatal

Every hardware operation returns `UTA_TA_ERROR` when `pthread_mutex_lock`
fails, but every `pthread_mutex_unlock` result is discarded with a
`(void)` cast and an "(ignore return code)" comment, so a release failure
never influences the return code. -/

/-- **C6 (counterexample).**  With every external call succeeding except
the final `pthread_mutex_unlock`, `tpm_self_test` on both hardware
backends returns success (with the lock still held) instead of the generic
error 0x10 the claim requires for a release failure. -/
theorem unlock_failure_not_fatal_counterexample :
    TpmIbm.tpm_self_test { TpmIbm.allOk with unlockOk := false } =
      (UTA_SUCCESS, true) ∧
    TpmTcg.tpm_self_test { TpmTcg.allOk with unlockOk := false } =
      (UTA_SUCCESS, true) ∧
    UTA_SUCCESS ≠ UTA_TA_ERROR := by
  refine ⟨rfl, rfl, by decide⟩

set_option maxHeartbeats 2000000 in
/-- **C6 (amended).**  For every hardware-backend operation, failure to
*acquire* the context's lock is fatal for that call — it returns the
generic trust-anchor error 0x10 (after parameter validation, in
`derive_key`'s case) — while failure to *release* the lock is ignored: the
operation's return code is the same whether the unlock succeeds or fails. -/
theorem lock_error_handling (devI : TpmIbm.Dev) (devT : TpmTcg.Dev)
    (buf dv : List Nat) (len_key len_dv key_slot len fuel : Nat) :
    (devI.lockOk = false →
      (key_slot ≤ 1 → len_dv = 8 → len_key ≤ 32 →
        (TpmIbm.tpm_derive_key devI buf len_key dv len_dv key_slot).1 =
          UTA_TA_ERROR) ∧
      TpmIbm.tpm_get_random devI buf len fuel =
        some (UTA_TA_ERROR, false, buf) ∧
      (TpmIbm.tpm_get_device_uuid devI buf).1 = UTA_TA_ERROR ∧
      (TpmIbm.tpm_self_test devI).1 = UTA_TA_ERROR ∧
      (TpmIbm.tpm_open devI).1 = UTA_TA_ERROR ∧
      (TpmIbm.tpm_close devI).1 = UTA_TA_ERROR) ∧
    (devT.lockOk = false →
      (key_slot ≤ 1 → len_dv = 8 → len_key ≤ 32 →
        (TpmTcg.tpm_derive_key devT buf len_key dv len_dv key_slot).1 =
          UTA_TA_ERROR) ∧
      TpmTcg.tpm_get_random devT buf len fuel =
        some (UTA_TA_ERROR, false, buf) ∧
      (TpmTcg.tpm_get_device_uuid devT buf).1 = UTA_TA_ERROR ∧
      (TpmTcg.tpm_self_test devT).1 = UTA_TA_ERROR ∧
      (TpmTcg.tpm_open devT).1 = UTA_TA_ERROR ∧
      (TpmTcg.tpm_close devT).1 = UTA_TA_ERROR) ∧
    ((TpmIbm.tpm_derive_key { devI with unlockOk := false } buf len_key dv
        len_dv key_slot).1 =
      (TpmIbm.tpm_derive_key { devI with unlockOk := true } buf len_key dv
        len_dv key_slot).1 ∧
    ((TpmIbm.tpm_get_random { devI with unlockOk := false } buf len
        fuel).map fun t => t.1) =
      ((TpmIbm.tpm_get_random { devI with unlockOk := true } buf len
        fuel).map fun t => t.1) ∧
    (TpmIbm.tpm_get_device_uuid { devI with unlockOk := false } buf).1 =
      (TpmIbm.tpm_get_device_uuid { devI with unlockOk := true } buf).1 ∧
    (TpmIbm.tpm_self_test { devI with unlockOk := false }).1 =
      (TpmIbm.tpm_self_test { devI with unlockOk := true }).1 ∧
    (TpmIbm.tpm_open { devI with unlockOk := false }).1 =
      (TpmIbm.tpm_open { devI with unlockOk := true }).1 ∧
    (TpmIbm.tpm_close { devI with unlockOk := false }).1 =
      (TpmIbm.tpm_close { devI with unlockOk := true }).1) ∧
    ((TpmTcg.tpm_derive_key { devT with unlockOk := false } buf len_key dv
        len_dv key_slot).1 =
      (TpmTcg.tpm_derive_key { devT with unlockOk := true } buf len_key dv
        len_dv key_slot).1 ∧
    ((TpmTcg.tpm_get_random { devT with unlockOk := false } buf len
        fuel).map fun t => t.1) =
      ((TpmTcg.tpm_get_random { devT with unlockOk := true } buf len
        fuel).map fun t => t.1) ∧
    (TpmTcg.tpm_get_device_uuid { devT with unlockOk := false } buf).1 =
      (TpmTcg.tpm_get_device_uuid { devT with unlockOk := true } buf).1 ∧
    (TpmTcg.tpm_self_test { devT with unlockOk := false }).1 =
      (TpmTcg.tpm_self_test { devT with unlockOk := true }).1 ∧
    (TpmTcg.tpm_open { devT with unlockOk := false }).1 =
      (TpmTcg.tpm_open { devT with unlockOk := true }).1 ∧
    (TpmTcg.tpm_close { devT with unlockOk := false }).1 =
      (TpmTcg.tpm_close { devT with unlockOk := true }).1) := by
  refine ⟨fun h => ?_, fun h => ?_, ?_, ?_⟩
  · have hns : ¬ key_slot > USED_KEY_SLOTS - 1 → True := fun _ => trivial
    refine ⟨fun h1 h2 h3 => ?_, ?_, ?_, ?_, ?_, ?_⟩
    · simp [TpmIbm.tpm_derive_key, USED_KEY_SLOTS, h, h2,
        show ¬ 1 < key_slot by omega, show ¬ 32 < len_key by omega]
    · simp [TpmIbm.tpm_get_random, h]
    · simp [TpmIbm.tpm_get_device_uuid, h]
    · simp [TpmIbm.tpm_self_test, h]
    · unfold TpmIbm.tpm_open
      by_cases hi : (!devI.lockInitOk) = true <;> simp [hi, h]
    · simp [TpmIbm.tpm_close, h]
  · refine ⟨fun h1 h2 h3 => ?_, ?_, ?_, ?_, ?_, ?_⟩
    · simp [TpmTcg.tpm_derive_key, USED_KEY_SLOTS, h, h2,
        show ¬ 1 < key_slot by omega, show ¬ 32 < len_key by omega]
    · simp [TpmTcg.tpm_get_random, h]
    · simp [TpmTcg.tpm_get_device_uuid, h]
    · simp [TpmTcg.tpm_self_test, h]
    · unfold TpmTcg.tpm_open
      by_cases hi : (!devT.lockInitOk) = true <;> simp [hi, h]
    · simp [TpmTcg.tpm_close, h]
  · cases devI
    refine ⟨?_, ?_, ?_, ?_, ?_, ?_⟩ <;>
      · simp only [TpmIbm.tpm_derive_key, TpmIbm.tpm_get_random,
          TpmIbm.tpm_get_rand, TpmIbm.tpm_get_device_uuid,
          TpmIbm.tpm_self_test, TpmIbm.tpm_open, TpmIbm.tpm_close,
          TpmIbm.calcHmac]
        split_ifs <;> rfl
  · cases devT
    refine ⟨?_, ?_, ?_, ?_, ?_, ?_⟩
    · simp only [TpmTcg.tpm_derive_key]
      split_ifs <;> rfl
    · simp only [TpmTcg.tpm_get_random]
      split_ifs <;> rfl
    · simp only [TpmTcg.tpm_get_device_uuid]
      split_ifs <;> rfl
    · simp only [TpmTcg.tpm_self_test]
      split_ifs <;> rfl
    · simp only [TpmTcg.tpm_open]
      split_ifs <;> rfl
    · simp only [TpmTcg.tpm_close]
      split_ifs <;> rfl

/-- Witness for the amended C6: a device whose lock acquisition fails, and
the release-failure/rc-indifference at the healthy device. -/
theorem lock_error_handling_witness :
    (TpmIbm.tpm_self_test { TpmIbm.allOk with lockOk := false }).1 =
      UTA_TA_ERROR ∧
    (TpmTcg.tpm_self_test { TpmTcg.allOk with unlockOk := false }).1 =
      (TpmTcg.tpm_self_test { TpmTcg.allOk with unlockOk := true }).1 := by
  have h := lock_error_handling { TpmIbm.allOk with lockOk := false }
    TpmTcg.allOk [] [] 0 0 0 0 0
  exact ⟨(h.1 rfl).2.2.2.1, h.2.2.2.2.2.2.1⟩

/-! ## C7 — the lock is *not* released on every return path

Several transport-failure paths return `UTA_TA_ERROR` with the context's
lock still held: every post-lock failure in both backends' `tpm_open`, the
`TSS_Delete` failure in the IBM `tpm_close`, and the later error paths of
the TCG `tpm_derive_key` / `tpm_get_random` / `tpm_get_device_uuid` /
`tpm_self_test`.  The slip is visible within single functions: in the TCG
`tpm_get_device_uuid` the `Esys_CreatePrimary` failure path unlocks while
the very next failure path (`Esys_TR_SetAuth`) does not. -/

/-- **C7 (code evaluation at the failing inputs).**  With only
`Esys_TR_FromTPMPublic` failing, the TCG `tpm_derive_key` returns the
generic error with the lock still held (`true` in the second component);
likewise `tpm_self_test` when `Esys_GetTestResult` fails and `tpm_open` /
`tpm_close` on the IBM backend; and inside the TCG `tpm_get_device_uuid`
the create-failure path releases the lock while the set-auth-failure path
leaks it. -/
theorem tcg_lock_leak_on_error_paths :
    TpmTcg.tpm_derive_key { TpmTcg.allOk with fromPublicOk := false }
        [9] 1 [0, 1, 2, 3, 4, 5, 6, 7] 8 0 = (UTA_TA_ERROR, true, [9]) ∧
    TpmTcg.tpm_self_test { TpmTcg.allOk with getTestResultOk := false } =
      (UTA_TA_ERROR, true) ∧
    (TpmTcg.tpm_get_device_uuid { TpmTcg.allOk with createEkOk := false }
        (List.replicate 16 0)).2.1 = false ∧
    (TpmTcg.tpm_get_device_uuid { TpmTcg.allOk with setAuthOk := false }
        (List.replicate 16 0)).2.1 = true ∧
    TpmIbm.tpm_open { TpmIbm.allOk with tssCreateOk := false } =
      (UTA_TA_ERROR, true) ∧
    TpmIbm.tpm_close { TpmIbm.allOk with tssDeleteOk := false } =
      (UTA_TA_ERROR, true) := by
  refine ⟨rfl, rfl, rfl, rfl, rfl, rfl⟩

end LibUta
